import Mathlib

/-!
Verification of the blempy accessor layer (`src/blempy/__init__.py`).

The Python module defines two classes:

* `PropertyCollection` (the spec's "BufferProxy"): a proxy holding a lazily
  (re)allocated flat numpy buffer mirroring one attribute of a host property
  collection, with `get`/`set` bulk transfers, indexing, iteration, and
  vector utilities (`extend`, `discard`, `@`, arithmetic).
* `UnifiedAttribute` (the spec's "UnifiedAttributeProxy"): composes
  `PropertyCollection` instances; in the CORNER (face-corner / loop) domain it
  holds per-face `loop_start` / `loop_total` indirection buffers plus the flat
  per-loop attribute buffer, and translates face indices into loop ranges.

Embedding choices:

* A host property collection, resolved to one named attribute, is modelled as
  `List (List Rat)`: one entry per element, each entry the list of numeric
  components of that element's attribute (a scalar attribute is a one-component
  entry, matching the Python code's `length = 1` for scalars). Numeric values
  (float32 / int / bool alike) are modelled as `Rat`; the dtype bookkeeping of
  `get` does not affect any verified property and is not modelled.
* A numpy ndarray buffer is modelled as `Option (List (List Rat))`: `none` is
  Python's `self.ndarray = None`, `some rows` is the buffer reshaped to rows of
  `self.length` components (the code reshapes to `(items, length)` when
  `length > 1` and to `(items,)` otherwise; in both cases row `i` of the model
  is the slice of the flat storage belonging to element `i`, and the last
  dimension of the real shape is computed by `shapeLast` below).
* Methods that mutate `self` or the host are written in state-passing style:
  they return the new proxy / host value together with `Option Err`, where
  `some e` models the Python call raising. The host's `foreach_get` /
  `foreach_set` bulk primitives are modelled by `reshapeRows` / `foreachSet`.
-/

/-- Error taxonomy. The Python code raises `ValueError` with distinct messages;
the spec names them EmptyCollection, NoBuffer, ShapeMismatch, IndexOutOfRange.
`indexOutOfRange` also stands for numpy's `IndexError`, `valueError` for
numpy-level `ValueError`s (shape mismatch in slice assignment, bad `np.append`
or `np.dot` dimensions), `typeError` for Python-level errors from using
`self.ndarray` while it is `None`, and `hostSizeMismatch` for the host's own
`foreach_get`/`foreach_set` size check (a host-level error, not raised by the
proxy's validation). -/
inductive Err where
  | emptyCollection
  | noBuffer
  | shapeMismatch
  | indexOutOfRange
  | valueError
  | typeError
  | hostSizeMismatch
deriving DecidableEq, Repr

/-- Result values of numpy indexing: a scalar cell, a single row, or a
sub-array of rows, mirroring the dimensionality numpy returns. -/
inductive NpVal where
  | scalar (q : Rat)
  | vec (r : List Rat)
  | mat (rows : List (List Rat))
deriving DecidableEq, Repr

/-- Component count of the attribute, read off element 0 of the live
collection: `length = len(attr) if hasattr(attr, "__len__") else 1` — scalars
are modelled as one-component entries. -/
def fieldLen (coll : List (List Rat)) : Nat := (coll.headD []).length

/-- Reshape a flat buffer of `items * l` values into `items` rows of `l`
components: the effect of `foreach_get` filling the flat buffer in element
order followed by `self.ndarray.shape = (items, length)`. -/
def reshapeRows (items l : Nat) (flat : List Rat) : List (List Rat) :=
  (List.range items).map (fun i => (flat.drop (i * l)).take l)

/-- Distribute a flat buffer back over the elements of a collection, giving
each element as many components as its attribute holds: the write half of the
host's `foreach_set` primitive. -/
def distribute : List (List Rat) → List Rat → List (List Rat)
  | [], _ => []
  | r :: rs, flat => flat.take r.length :: distribute rs (flat.drop r.length)

/-- The host's `foreach_set(attribute, flat)` bulk primitive: checks that the
flat source has exactly one value per attribute component of every element,
then atomically rewrites every element's attribute in element order. -/
def foreachSet (coll : List (List Rat)) (flat : List Rat) :
    List (List Rat) × Option Err :=
  if flat.length = (coll.map List.length).sum then (distribute coll flat, none)
  else (coll, some Err.hostSizeMismatch)

/-- Slice `xs[a:b]` of a numpy array along its first axis: clips to the array
bounds and never raises (for nonnegative bounds, the only form the code
uses). -/
def npSlice (xs : List (List Rat)) (a b : Nat) : List (List Rat) :=
  (xs.drop a).take (b - a)

/-- Slice assignment `xs[a:b] = v` along the first axis: numpy requires the
value's shape to match the (clipped) slice; on mismatch it raises
`ValueError` and writes nothing. Row widths are checked against `w`, the
array's trailing dimension. -/
def npSetSlice (xs : List (List Rat)) (a b : Nat) (w : Nat)
    (v : List (List Rat)) : List (List Rat) × Option Err :=
  if v.length = (npSlice xs a b).length ∧ (∀ r ∈ v, r.length = w) then
    (xs.take a ++ v ++ xs.drop (a + v.length), none)
  else (xs, some Err.valueError)

/-- State of a `PropertyCollection` proxy (spec: "BufferProxy"). The Python
object also stores the host object and the locator / attribute-name strings;
those only serve to re-resolve the live collection, which the model passes to
each method directly, so they are not part of the state. -/
structure PropertyCollection where
  ndarray : Option (List (List Rat))
  items : Nat
  length : Nat
  extended : Bool
deriving DecidableEq, Repr

/-- A freshly constructed proxy: `ndarray = None`, `items = 0`, `length = 0`,
`extended = False`. -/
def PropertyCollection.init : PropertyCollection :=
  { ndarray := none, items := 0, length := 0, extended := false }

/-- The reallocation condition of `get` (source lines 83-88):
`self.ndarray is None or items != self.items or length != self.length or
self.extended`. -/
def reallocNeeded (pc : PropertyCollection) (coll : List (List Rat)) : Bool :=
  pc.ndarray.isNone || coll.length != pc.items || fieldLen coll != pc.length
    || pc.extended

/-- The last dimension `self.ndarray.shape[-1]` of the buffer: the code keeps
the buffer reshaped to `(items, length)` when `length > 1` and `(items,)`
otherwise (an invariant of every state the code produces), so the trailing
dimension is `length` in the first case and `items` in the second. -/
def shapeLast (pc : PropertyCollection) : Nat :=
  if pc.length > 1 then pc.length else pc.items

/-- `PropertyCollection.get`: transfer the live collection's attribute into
the buffer. On an empty collection, clears the state and raises
EmptyCollection. Otherwise reads the component count off element 0,
reallocates exactly under `reallocNeeded`, bulk-reads via `foreach_get`
(whose host-side size check is `hostSizeMismatch`; it cannot fire on a
type-correct host collection, whose attribute width is uniform) and reshapes.
The unfilled allocation left behind by a failing `foreach_get` is not
modelled. -/
def PropertyCollection.get (pc : PropertyCollection)
    (coll : List (List Rat)) : PropertyCollection × Option Err :=
  let items := coll.length
  if items ≠ 0 then
    let length := fieldLen coll
    let pc1 :=
      if reallocNeeded pc coll then
        { pc with items := items, length := length, extended := false }
      else pc
    if coll.flatten.length = items * length then
      ({ pc1 with ndarray := some (reshapeRows items length coll.flatten) },
        none)
    else (pc1, some Err.hostSizeMismatch)
  else
    ({ pc with items := 0, length := 0, extended := false, ndarray := none },
      some Err.emptyCollection)

/-- `PropertyCollection.set`: push the buffer back to the host. Raises
EmptyCollection on an empty live collection, then ShapeMismatch when the live
attribute's component count differs from the recorded `length`, then reaches
`self.ndarray.ravel()` (a Python-level error if the buffer is `None`) and
hands the flat buffer to the host's `foreach_set`. -/
def PropertyCollection.set (pc : PropertyCollection)
    (coll : List (List Rat)) : List (List Rat) × Option Err :=
  if coll.length = 0 then (coll, some Err.emptyCollection)
  else if fieldLen coll ≠ pc.length then (coll, some Err.shapeMismatch)
  else
    match pc.ndarray with
    | none => (coll, some Err.typeError)
    | some rows => foreachSet coll rows.flatten

/-- `PropertyCollection.__getitem__`: `return self.ndarray[key : key + 1]` — a
numpy slice, which clips and never raises for a nonnegative key; out-of-range
keys yield an empty slice. On a `(items,)`-shaped buffer the slice is
one-dimensional (a `vec` of cells), on `(items, length)` it is a row slice. -/
def PropertyCollection.getitem (pc : PropertyCollection) (key : Nat) :
    NpVal × Option Err :=
  match pc.ndarray with
  | none => (NpVal.mat [], some Err.typeError)
  | some rows =>
    let s := npSlice rows key (key + 1)
    (if pc.length > 1 then NpVal.mat s else NpVal.vec (s.map (·.headD 0)),
      none)

/-- `PropertyCollection.__setitem__`: `self.ndarray[key] = value` — basic
indexing, so a key at or beyond the first dimension raises `IndexError`;
a well-shaped value replaces row `key` in place (numpy broadcasting of
lower-dimensional values is not needed by any verified property and a
mis-shaped value is mapped to `valueError`). -/
def PropertyCollection.setitem (pc : PropertyCollection) (key : Nat)
    (v : List Rat) : PropertyCollection × Option Err :=
  match pc.ndarray with
  | none => (pc, some Err.typeError)
  | some rows =>
    if key < rows.length then
      if v.length = (rows.getD key []).length then
        ({ pc with ndarray := some (rows.set key v) }, none)
      else (pc, some Err.valueError)
    else (pc, some Err.indexOutOfRange)

/-- `PropertyCollection.__len__`: `return self.items`. -/
def PropertyCollection.len (pc : PropertyCollection) : Nat := pc.items

/-- `PropertyCollection.extend`: append a 4th column. Checks, in source
order: live collection nonempty, buffer allocated, `shape[-1] == 3`; then
`np.append(self.ndarray, (zeros|ones)((self.items, 1)), axis=1)` itself needs
a two-dimensional buffer whose row count matches `self.items` (else numpy
raises), appends `0.0` per row when `normal` and `1.0` otherwise, and sets
`length = 4`. -/
def PropertyCollection.extend (pc : PropertyCollection)
    (coll : List (List Rat)) (normal : Bool) :
    PropertyCollection × Option Err :=
  if coll.length = 0 then (pc, some Err.emptyCollection)
  else
    match pc.ndarray with
    | none => (pc, some Err.noBuffer)
    | some rows =>
      if shapeLast pc ≠ 3 then (pc, some Err.shapeMismatch)
      else if pc.length ≤ 1 then (pc, some Err.valueError)
      else if rows.length ≠ pc.items then (pc, some Err.valueError)
      else
        ({ pc with
            ndarray := some (rows.map (fun r => r ++ [if normal then 0 else 1]))
            length := 4 }, none)

/-- `PropertyCollection.discard`: drop the 4th column. Checks, in source
order: live collection nonempty, buffer allocated, `shape[-1] == 4`; then
`self.ndarray[:, :3]` needs a two-dimensional buffer (numpy `IndexError`
otherwise), keeps the first 3 components of every row and sets
`length = 3`. -/
def PropertyCollection.discard (pc : PropertyCollection)
    (coll : List (List Rat)) : PropertyCollection × Option Err :=
  if coll.length = 0 then (pc, some Err.emptyCollection)
  else
    match pc.ndarray with
    | none => (pc, some Err.noBuffer)
    | some rows =>
      if shapeLast pc ≠ 4 then (pc, some Err.shapeMismatch)
      else if pc.length ≤ 1 then (pc, some Err.indexOutOfRange)
      else
        ({ pc with
            ndarray := some (rows.map (fun r => r.take 3))
            length := 3 }, none)

/-- Entry `j` of a row-times-matrix product: the dot product of the row with
column `j` of the matrix. -/
def dotCell (r : List Rat) (m : List (List Rat)) (j : Nat) : Rat :=
  ((r.zip m).map (fun p => p.1 * p.2.getD j 0)).sum

/-- One row of `np.dot(row, m)` for a matrix `m` given as its list of rows. -/
def dotRow (r : List Rat) (m : List (List Rat)) : List Rat :=
  (List.range ((m.headD []).length)).map (dotCell r m)

/-- `np.dot(a, m)` for a two-dimensional `a`: row-wise matrix product. -/
def dotMat (a m : List (List Rat)) : List (List Rat) :=
  a.map (fun r => dotRow r m)

/-- `PropertyCollection.__matmul__`: `return np.dot(self.ndarray, matrix)` —
computes a fresh product array; `self` is not assigned to, so the proxy
component of the result is `pc` unchanged. `np.dot` raises on a `None` buffer
or when the buffer's trailing dimension differs from the matrix's row
count. -/
def PropertyCollection.matmul (pc : PropertyCollection)
    (m : List (List Rat)) :
    (List (List Rat) × PropertyCollection) × Option Err :=
  match pc.ndarray with
  | none => (([], pc), some Err.typeError)
  | some rows =>
    if (rows.headD []).length = m.length then ((dotMat rows m, pc), none)
    else (([], pc), some Err.valueError)

/-- `PropertyCollection.__imatmul__`: `np.dot(self.ndarray, matrix,
out=self.ndarray); return self` — writes the product into the buffer's
storage and returns the proxy itself; the `out=` form additionally requires
the product's shape to equal the buffer's shape. -/
def PropertyCollection.imatmul (pc : PropertyCollection)
    (m : List (List Rat)) : PropertyCollection × Option Err :=
  match pc.ndarray with
  | none => (pc, some Err.typeError)
  | some rows =>
    if (rows.headD []).length = m.length
        ∧ (m.headD []).length = (rows.headD []).length then
      ({ pc with ndarray := some (dotMat rows m) }, none)
    else (pc, some Err.valueError)

/-- Attribute domains supported by `UnifiedAttribute` (curve, instance and
layer domains are rejected at construction). -/
inductive Domain where
  | CORNER
  | FACE
  | EDGE
  | POINT
deriving DecidableEq, Repr

/-- State of a `UnifiedAttribute` proxy (spec: "UnifiedAttributeProxy") after
construction. In the Python object `loop_start` and `loop_total` exist only in
the CORNER domain; no method reads them in the other domains, so the model
carries them unconditionally (their value is irrelevant outside CORNER).
`loop_attributes` is the proxy over the attribute layer's own data in every
domain. The name / data-type / storage-type strings only drive construction,
which is not among the verified operations, and are omitted. -/
structure UnifiedAttribute where
  domain : Domain
  loop_start : PropertyCollection
  loop_total : PropertyCollection
  loop_attributes : PropertyCollection
deriving DecidableEq, Repr

/-- The host mesh, resolved to the three collections the proxies address: the
per-polygon `loop_start` and `loop_total` scalar attributes (one-component
entries) and the attribute layer's own per-element data (per-loop data in the
CORNER domain, per-face/edge/point otherwise). -/
structure Mesh where
  loop_start : List (List Rat)
  loop_total : List (List Rat)
  attrData : List (List Rat)
deriving DecidableEq, Repr

/-- Conversion of a numpy integer scalar (stored as `Rat` in the model) to a
slice bound; every value the code reads from `loop_start` / `loop_total` is a
nonnegative loop index. -/
def ratIdx (q : Rat) : Nat := q.num.toNat

/-- `UnifiedAttribute.get`: in the CORNER domain re-pulls `loop_start`,
`loop_total` and `loop_attributes`; otherwise only `loop_attributes`. Errors
from the constituent `get` calls propagate in source order. -/
def UnifiedAttribute.get (ua : UnifiedAttribute) (m : Mesh) :
    UnifiedAttribute × Option Err :=
  match ua.domain with
  | Domain.CORNER =>
    let rs := ua.loop_start.get m.loop_start
    match rs.2 with
    | some e => ({ ua with loop_start := rs.1 }, some e)
    | none =>
      let rt := ua.loop_total.get m.loop_total
      match rt.2 with
      | some e => ({ ua with loop_start := rs.1, loop_total := rt.1 }, some e)
      | none =>
        let ra := ua.loop_attributes.get m.attrData
        ({ ua with
            loop_start := rs.1
            loop_total := rt.1
            loop_attributes := ra.1 }, ra.2)
  | _ =>
    let ra := ua.loop_attributes.get m.attrData
    ({ ua with loop_attributes := ra.1 }, ra.2)

/-- `UnifiedAttribute.set`: the body is exactly
`self.loop_attributes.set()` — only the attribute buffer is pushed back to
the host; the `loop_start` / `loop_total` collections are never written. -/
def UnifiedAttribute.set (ua : UnifiedAttribute) (m : Mesh) :
    Mesh × Option Err :=
  let r := ua.loop_attributes.set m.attrData
  ({ m with attrData := r.1 }, r.2)

/-- `UnifiedAttribute.__len__`: `self.loop_start.items` in the CORNER domain
(the number of faces), `self.loop_attributes.items` otherwise. -/
def UnifiedAttribute.len (ua : UnifiedAttribute) : Nat :=
  match ua.domain with
  | Domain.CORNER => ua.loop_start.items
  | _ => ua.loop_attributes.items

/-- `UnifiedAttribute.__getitem__`: in the CORNER domain reads
`start = self.loop_start.ndarray[key]` and
`end = start + self.loop_total.ndarray[key]` (basic numpy indexing — an
`IndexError` when `key` is at or beyond the array's first dimension) and
returns the slice `self.loop_attributes.ndarray[start:end]` of the flat
per-loop buffer. In the other domains returns
`self.loop_attributes.ndarray[key]` — a row of a two-dimensional buffer or a
scalar cell of a one-dimensional one, with the same `IndexError` bound
check. -/
def UnifiedAttribute.getitem (ua : UnifiedAttribute) (key : Nat) :
    NpVal × Option Err :=
  match ua.domain with
  | Domain.CORNER =>
    match ua.loop_start.ndarray, ua.loop_total.ndarray,
        ua.loop_attributes.ndarray with
    | some ls, some lt, some la =>
      if key < ls.length then
        if key < lt.length then
          let start := ratIdx ((ls.getD key []).headD 0)
          let stop := start + ratIdx ((lt.getD key []).headD 0)
          (NpVal.mat (npSlice la start stop), none)
        else (NpVal.mat [], some Err.indexOutOfRange)
      else (NpVal.mat [], some Err.indexOutOfRange)
    | _, _, _ => (NpVal.mat [], some Err.typeError)
  | _ =>
    match ua.loop_attributes.ndarray with
    | some la =>
      if key < la.length then
        (if ua.loop_attributes.length > 1 then NpVal.vec (la.getD key [])
          else NpVal.scalar ((la.getD key []).headD 0), none)
      else (NpVal.mat [], some Err.indexOutOfRange)
    | none => (NpVal.mat [], some Err.typeError)

/-- `UnifiedAttribute.__setitem__`: in the CORNER domain resolves the same
`[start, start + count)` loop range as `__getitem__` (with the same
`IndexError` bound check on the face index) and performs the slice assignment
`self.loop_attributes.ndarray[start:end] = value`. In the other domains
performs the row assignment `self.loop_attributes.ndarray[key] = value`,
modelled for a value given as a single row. -/
def UnifiedAttribute.setitem (ua : UnifiedAttribute) (key : Nat)
    (v : List (List Rat)) : UnifiedAttribute × Option Err :=
  match ua.domain with
  | Domain.CORNER =>
    match ua.loop_start.ndarray, ua.loop_total.ndarray,
        ua.loop_attributes.ndarray with
    | some ls, some lt, some la =>
      if key < ls.length then
        if key < lt.length then
          let start := ratIdx ((ls.getD key []).headD 0)
          let stop := start + ratIdx ((lt.getD key []).headD 0)
          let r := npSetSlice la start stop ua.loop_attributes.length v
          ({ ua with loop_attributes :=
              { ua.loop_attributes with ndarray := some r.1 } }, r.2)
        else (ua, some Err.indexOutOfRange)
      else (ua, some Err.indexOutOfRange)
    | _, _, _ => (ua, some Err.typeError)
  | _ =>
    match v with
    | [row] =>
      let r := ua.loop_attributes.setitem key row
      ({ ua with loop_attributes := r.1 }, r.2)
    | _ => (ua, some Err.valueError)

/-- `UnifiedAttribute.__matmul__`: forwarded to
`self.loop_attributes.__matmul__(matrix)`; the proxy is not mutated. -/
def UnifiedAttribute.matmul (ua : UnifiedAttribute) (m : List (List Rat)) :
    (List (List Rat) × UnifiedAttribute) × Option Err :=
  let r := ua.loop_attributes.matmul m
  ((r.1.1, { ua with loop_attributes := r.1.2 }), r.2)

/-- `UnifiedAttribute.__imatmul__`: forwards to
`self.loop_attributes.__imatmul__(matrix)` (which mutates the attribute
buffer in place) and then returns `self` — the `UnifiedAttribute`, not the
underlying `PropertyCollection`. -/
def UnifiedAttribute.imatmul (ua : UnifiedAttribute) (m : List (List Rat)) :
    UnifiedAttribute × Option Err :=
  let r := ua.loop_attributes.imatmul m
  ({ ua with loop_attributes := r.1 }, r.2)

/-- Reshaping the flat concatenation of a collection of uniform-width rows
recovers the rows: what `foreach_get` plus the `(items, length)` reshape
produces when the host collection has uniform attribute width. -/
theorem reshapeRows_flatten (coll : List (List Rat)) (l : Nat)
    (h : ∀ r ∈ coll, r.length = l) :
    reshapeRows coll.length l coll.flatten = coll := by
  induction coll with
  | nil => simp [reshapeRows]
  | cons r rest ih =>
    have hr : r.length = l := h r (List.mem_cons_self r rest)
    have hrest : ∀ x ∈ rest, x.length = l :=
      fun x hx => h x (List.mem_cons_of_mem r hx)
    rw [List.flatten_cons, List.length_cons, reshapeRows,
      List.range_succ_eq_map, List.map_cons, List.map_map]
    have h0 : ((r ++ rest.flatten).drop (0 * l)).take l = r := by
      rw [Nat.zero_mul, List.drop_zero, ← hr, List.take_left]
    have hs : ∀ i : Nat,
        ((r ++ rest.flatten).drop (Nat.succ i * l)).take l
          = ((rest.flatten).drop (i * l)).take l := by
      intro i
      have harith : Nat.succ i * l = r.length + i * l := by
        rw [hr, Nat.succ_mul]; exact Nat.add_comm _ _
      rw [harith, ← List.drop_drop, List.drop_left]
    rw [h0]
    have : (List.range rest.length).map
          ((fun i => ((r ++ rest.flatten).drop (i * l)).take l) ∘ Nat.succ)
        = (List.range rest.length).map
          (fun i => ((rest.flatten).drop (i * l)).take l) :=
      List.map_congr_left (fun i _ => hs i)
    rw [this]
    rw [← reshapeRows, ih hrest]

/-- Distributing the flat concatenation of `rows` over a collection whose
elements have pointwise the same widths writes back exactly `rows`. -/
theorem distribute_flatten (coll rows : List (List Rat))
    (h : List.Forall₂ (fun a b => a.length = b.length) coll rows) :
    distribute coll rows.flatten = rows := by
  induction h with
  | nil => simp [distribute]
  | cons hab htail ih =>
    rw [List.flatten_cons, distribute, hab, List.take_left, List.drop_left, ih]

/-- The host's `foreach_set` size check passes, and the write is the full
element-order rewrite, whenever the flat source is the concatenation of rows
matching the collection's widths pointwise. -/
theorem foreachSet_forall₂ (coll rows : List (List Rat))
    (h : List.Forall₂ (fun a b => a.length = b.length) coll rows) :
    foreachSet coll rows.flatten = (rows, none) := by
  have hmap : rows.map List.length = coll.map List.length := by
    induction h with
    | nil => rfl
    | cons hab htail ih => simp [hab, ih]
  rw [foreachSet, List.length_flatten, hmap, if_pos rfl,
    distribute_flatten coll rows h]

/-- Two lists of rows of the same uniform width and the same length are
pointwise length-matched. -/
theorem forall₂_length_uniform (a b : List (List Rat)) (w : Nat)
    (hab : a.length = b.length) (ha : ∀ r ∈ a, r.length = w)
    (hb : ∀ r ∈ b, r.length = w) :
    List.Forall₂ (fun x y => x.length = y.length) a b := by
  induction a generalizing b with
  | nil =>
    cases b with
    | nil => exact List.Forall₂.nil
    | cons y ys => simp at hab
  | cons x xs ih =>
    cases b with
    | nil => simp at hab
    | cons y ys =>
      refine List.Forall₂.cons ?_ (ih ys ?_ ?_ ?_)
      · rw [ha x (List.mem_cons_self x xs), hb y (List.mem_cons_self y ys)]
      · simpa using hab
      · exact fun r hr => ha r (List.mem_cons_of_mem x hr)
      · exact fun r hr => hb r (List.mem_cons_of_mem y hr)

/-- Total flat size of a uniform-width collection. -/
theorem sum_lengths_uniform (xs : List (List Rat)) (w : Nat)
    (h : ∀ r ∈ xs, r.length = w) :
    (xs.map List.length).sum = xs.length * w := by
  induction xs with
  | nil => simp
  | cons r rest ih =>
    have hr : r.length = w := h r (List.mem_cons_self r rest)
    have hrest := ih (fun x hx => h x (List.mem_cons_of_mem r hx))
    simp only [List.map_cons, List.sum_cons, List.length_cons, hr, hrest]
    ring

/-- Flat size of a uniform-width collection, as the `items * length` product
`get` compares buffer sizes against. -/
theorem flatten_length_uniform (xs : List (List Rat)) (w : Nat)
    (h : ∀ r ∈ xs, r.length = w) :
    xs.flatten.length = xs.length * w := by
  rw [List.length_flatten, sum_lengths_uniform xs w h]

/-- Decomposition of the reallocation guard being off: the buffer exists and
`items`, `length` and `extended` all match the live collection. -/
theorem reallocNeeded_eq_false_iff (pc : PropertyCollection)
    (coll : List (List Rat)) :
    reallocNeeded pc coll = false ↔
      pc.ndarray ≠ none ∧ coll.length = pc.items ∧ fieldLen coll = pc.length
        ∧ pc.extended = false := by
  simp [reallocNeeded, Option.isNone_iff_eq_none, Option.isSome_iff_ne_none,
    and_assoc]

/-- On a nonempty collection of total flat size `items * length`, `get`
succeeds and fully determines the proxy state: buffer reshaped from the
collection's flat data, `items` and `length` matching the live collection,
`extended` cleared — whether or not it had to reallocate. -/
theorem get_spec (pc : PropertyCollection) (coll : List (List Rat))
    (hne : coll ≠ [])
    (hsz : coll.flatten.length = coll.length * fieldLen coll) :
    pc.get coll =
      ({ ndarray := some (reshapeRows coll.length (fieldLen coll) coll.flatten)
         items := coll.length
         length := fieldLen coll
         extended := false }, none) := by
  have hlen : coll.length ≠ 0 := by simpa using hne
  by_cases hr : reallocNeeded pc coll
  · obtain ⟨nd, it, le, ex⟩ := pc
    simp [PropertyCollection.get, hlen, hr, hsz]
  · have hdec := (reallocNeeded_eq_false_iff pc coll).mp (by simpa using hr)
    obtain ⟨nd, it, le, ex⟩ := pc
    obtain ⟨h1, h2, h3, h4⟩ := hdec
    simp only at h2 h3 h4
    have hit : it ≠ 0 := by rw [← h2]; exact hlen
    simp [PropertyCollection.get, hlen, hr, hsz, h2, h3, h4, hit]

/-- Conversion of a natural number stored as a numpy integer scalar back to a
natural index. -/
theorem ratIdx_natCast (n : Nat) : ratIdx (n : Rat) = n := by
  simp [ratIdx]

/-- C1: for every populated host collection (with the uniform attribute width
the host guarantees), calling `get()` and then `set()` with no intervening
mutation of the buffer leaves every live element's attribute equal to its
value before the `get()` — exactly equal in the rational-valued model, which
subsumes the claim's floating-point tolerance. -/
theorem c1_get_set_roundtrip (pc : PropertyCollection)
    (coll : List (List Rat)) (hne : coll ≠ [])
    (hhom : ∀ r ∈ coll, r.length = fieldLen coll) :
    (pc.get coll).2 = none ∧ (pc.get coll).1.set coll = (coll, none) := by
  have hsz := flatten_length_uniform coll (fieldLen coll) hhom
  have hres := reshapeRows_flatten coll (fieldLen coll) hhom
  have hlen : ¬ coll.length = 0 := by simpa using hne
  have hf : foreachSet coll coll.flatten = (coll, none) :=
    foreachSet_forall₂ coll coll
      (forall₂_length_uniform coll coll (fieldLen coll) rfl hhom hhom)
  rw [get_spec pc coll hne hsz]
  refine ⟨rfl, ?_⟩
  simp [PropertyCollection.set, hlen, hres, hf]

/-- C1 witness: a two-element collection of 3-component vectors
round-trips. -/
theorem c1_get_set_roundtrip_witness :
    ((PropertyCollection.init.get [[1, 2, 3], [4, 5, 6]]).2 = none
      ∧ (PropertyCollection.init.get
          [[1, 2, 3], [4, 5, 6]]).1.set [[1, 2, 3], [4, 5, 6]]
        = ([[1, 2, 3], [4, 5, 6]], none)) :=
  c1_get_set_roundtrip PropertyCollection.init [[1, 2, 3], [4, 5, 6]]
    (by decide) (by decide)

/-- C3: `get` reallocates exactly when there is no buffer, the element count
changed, the component count changed, or `extended` is set; and after a
successful `get`, a second `get` on the unchanged collection does not
reallocate and returns the identical proxy state (same `items`, `length`,
buffer contents) with no error. -/
theorem c3_get_realloc_idempotent (pc pc1 : PropertyCollection)
    (coll : List (List Rat))
    (hhom : ∀ r ∈ coll, r.length = fieldLen coll)
    (hget : pc.get coll = (pc1, none)) :
    (reallocNeeded pc coll = true ↔
      (pc.ndarray = none ∨ coll.length ≠ pc.items ∨ fieldLen coll ≠ pc.length
        ∨ pc.extended = true))
    ∧ reallocNeeded pc1 coll = false
    ∧ pc1.get coll = (pc1, none) := by
  have hne : coll ≠ [] := by
    intro h
    rw [h] at hget
    simp [PropertyCollection.get] at hget
  have hsz := flatten_length_uniform coll (fieldLen coll) hhom
  have hspec := get_spec pc coll hne hsz
  rw [hget, Prod.mk.injEq] at hspec
  obtain ⟨hpc1, -⟩ := hspec
  refine ⟨?_, ?_, ?_⟩
  · simp [reallocNeeded, Bool.or_eq_true, Option.isNone_iff_eq_none,
      bne_iff_ne, or_assoc]
  · rw [hpc1]
    simp [reallocNeeded]
  · rw [hpc1]
    exact get_spec _ coll hne hsz

/-- C3 witness: a fresh proxy over a concrete two-element scalar collection;
the realloc condition holds before the first `get` (no buffer yet) and the
second `get` is a no-op returning the same state. -/
theorem c3_get_realloc_idempotent_witness :
    (reallocNeeded PropertyCollection.init [[1], [2]] = true ↔
      (PropertyCollection.init.ndarray = none
        ∨ ([[1], [2]] : List (List Rat)).length ≠ PropertyCollection.init.items
        ∨ fieldLen [[1], [2]] ≠ PropertyCollection.init.length
        ∨ PropertyCollection.init.extended = true))
    ∧ reallocNeeded ⟨some [[1], [2]], 2, 1, false⟩ [[1], [2]] = false
    ∧ (⟨some [[1], [2]], 2, 1, false⟩ : PropertyCollection).get [[1], [2]]
        = (⟨some [[1], [2]], 2, 1, false⟩, none) :=
  c3_get_realloc_idempotent PropertyCollection.init
    ⟨some [[1], [2]], 2, 1, false⟩ [[1], [2]] (by decide) (by decide)

/-- C4: `set` raises ShapeMismatch whenever the live attribute's component
count differs from the buffer's recorded `length` (on a nonempty collection),
and `set` has no partial-success state: every erroring `set` leaves the host
collection unchanged, and every successful `set` is the full element-order
bulk write of the buffer. -/
theorem c4_set_shape_check_atomic (pc : PropertyCollection)
    (coll : List (List Rat)) :
    (coll ≠ [] → fieldLen coll ≠ pc.length →
      pc.set coll = (coll, some Err.shapeMismatch))
    ∧ ((pc.set coll).2 ≠ none → (pc.set coll).1 = coll)
    ∧ ((pc.set coll).2 = none → ∃ rows, pc.ndarray = some rows
        ∧ pc.set coll = (distribute coll rows.flatten, none)) := by
  refine ⟨?_, ?_, ?_⟩
  · intro hne hmm
    have h0 : ¬ coll.length = 0 := by simpa using hne
    simp [PropertyCollection.set, h0, hmm]
  · intro hsome
    by_cases h0 : coll.length = 0
    · simp [PropertyCollection.set, h0]
    · by_cases h1 : fieldLen coll ≠ pc.length
      · simp [PropertyCollection.set, h0, h1]
      · rw [not_ne_iff] at h1
        cases hnd : pc.ndarray with
        | none => simp [PropertyCollection.set, h0, h1, hnd]
        | some rows =>
          by_cases h2 : (rows.map List.length).sum = (coll.map List.length).sum
          · rw [PropertyCollection.set] at hsome
            simp [h0, h1, hnd, foreachSet, h2] at hsome
          · simp [PropertyCollection.set, h0, h1, hnd, foreachSet, h2]
  · intro hnone
    by_cases h0 : coll.length = 0
    · rw [PropertyCollection.set] at hnone
      simp [h0] at hnone
    · by_cases h1 : fieldLen coll ≠ pc.length
      · rw [PropertyCollection.set] at hnone
        simp [h0, h1] at hnone
      · rw [not_ne_iff] at h1
        cases hnd : pc.ndarray with
        | none =>
          rw [PropertyCollection.set] at hnone
          simp [h0, h1, hnd] at hnone
        | some rows =>
          by_cases h2 : (rows.map List.length).sum = (coll.map List.length).sum
          · exact ⟨rows, rfl,
              by simp [PropertyCollection.set, h0, h1, hnd, foreachSet, h2]⟩
          · rw [PropertyCollection.set] at hnone
            simp [h0, h1, hnd, foreachSet, h2] at hnone

/-- C4 witness: a stale buffer recorded with `length = 3` against a live
collection of 2-component vectors raises ShapeMismatch and leaves the host
collection unchanged. -/
theorem c4_set_shape_check_atomic_witness :
    (⟨some [[1, 2, 3]], 1, 3, false⟩ : PropertyCollection).set [[7, 8]]
      = ([[7, 8]], some Err.shapeMismatch) :=
  (c4_set_shape_check_atomic ⟨some [[1, 2, 3]], 1, 3, false⟩ [[7, 8]]).1
    (by decide) (by decide)

/-- C8: `get` on a collection with zero live elements raises EmptyCollection
after clearing the proxy state to no buffer, `items = 0`, `length = 0`,
`extended = false`, whatever the prior state was. -/
theorem c8_get_empty_clears_state (pc : PropertyCollection)
    (coll : List (List Rat)) (h : coll.length = 0) :
    pc.get coll =
      ({ ndarray := none, items := 0, length := 0, extended := false },
        some Err.emptyCollection) := by
  obtain ⟨nd, it, le, ex⟩ := pc
  simp [PropertyCollection.get, h]

/-- C8 witness: a proxy with junk state, `get` against the empty
collection. -/
theorem c8_get_empty_clears_state_witness :
    (⟨some [[1]], 3, 7, true⟩ : PropertyCollection).get []
      = (⟨none, 0, 0, false⟩, some Err.emptyCollection) :=
  c8_get_empty_clears_state ⟨some [[1]], 3, 7, true⟩ [] rfl

/-- C10: the validation `set` performs is only about the component count: on
a nonempty live collection whose component count equals the buffer's
`length`, `set` hands the buffer to the host's bulk write even when the
element count differs from the buffer's `items` — it does not raise
ShapeMismatch or EmptyCollection itself. -/
theorem c10_set_ignores_item_count (pc : PropertyCollection)
    (coll rows : List (List Rat)) (hne : coll ≠ [])
    (hnd : pc.ndarray = some rows)
    (hlen : fieldLen coll = pc.length)
    (_hitems : coll.length ≠ pc.items) :
    pc.set coll = foreachSet coll rows.flatten
    ∧ (pc.set coll).2 ≠ some Err.shapeMismatch
    ∧ (pc.set coll).2 ≠ some Err.emptyCollection := by
  have h0 : ¬ coll.length = 0 := by simpa using hne
  have heq : pc.set coll = foreachSet coll rows.flatten := by
    simp [PropertyCollection.set, h0, hlen, hnd]
  refine ⟨heq, ?_, ?_⟩ <;> rw [heq, foreachSet] <;> split <;> simp

/-- C10 witness: buffer of 3 two-component rows (`items = 3`) against a live
collection of 2 two-component elements: the proxy's validation passes and the
stale-sized flat buffer reaches the host's bulk write (which then fails its
own size check, at host level). -/
theorem c10_set_ignores_item_count_witness :
    ((⟨some [[1, 2], [3, 4], [5, 6]], 3, 2, false⟩ : PropertyCollection).set
        [[0, 0], [0, 0]]
      = foreachSet [[0, 0], [0, 0]] [[1, 2], [3, 4], [5, 6]].flatten)
    ∧ ((⟨some [[1, 2], [3, 4], [5, 6]], 3, 2, false⟩ :
        PropertyCollection).set [[0, 0], [0, 0]]).2 ≠ some Err.shapeMismatch
    ∧ ((⟨some [[1, 2], [3, 4], [5, 6]], 3, 2, false⟩ :
        PropertyCollection).set [[0, 0], [0, 0]]).2 ≠ some Err.emptyCollection :=
  c10_set_ignores_item_count ⟨some [[1, 2], [3, 4], [5, 6]], 3, 2, false⟩
    [[0, 0], [0, 0]] [[1, 2], [3, 4], [5, 6]] (by decide) rfl (by decide)
    (by decide)

/-- C5: on a buffer of 3-component vectors, `extend` appends a 4th component
to every element — `1.0` by default and `0.0` when `normal` is set — and sets
`length` to 4; `discard` then restores the original `(items, 3)` contents and
state exactly (in particular `length` back to 3). -/
theorem c5_extend_discard_inverse (pc : PropertyCollection)
    (coll rows : List (List Rat)) (normal : Bool)
    (hne : coll ≠ [])
    (hnd : pc.ndarray = some rows)
    (hlen : pc.length = 3)
    (hrows : ∀ r ∈ rows, r.length = 3)
    (hitems : rows.length = pc.items) :
    pc.extend coll normal =
      ({ pc with
          ndarray := some (rows.map (fun r => r ++ [if normal then 0 else 1]))
          length := 4 }, none)
    ∧ (∀ r ∈ rows.map (fun r => r ++ [if normal then (0 : Rat) else 1]),
        r.drop 3 = [if normal then (0 : Rat) else 1])
    ∧ (pc.extend coll normal).1.discard coll = (pc, none) := by
  have h0 : ¬ coll.length = 0 := by simpa using hne
  have hsl : shapeLast pc = 3 := by simp [shapeLast, hlen]
  have hext : pc.extend coll normal =
      ({ pc with
          ndarray := some (rows.map (fun r => r ++ [if normal then 0 else 1]))
          length := 4 }, none) := by
    simp [PropertyCollection.extend, h0, hnd, hsl, hlen, hitems]
  refine ⟨hext, ?_, ?_⟩
  · intro r hr
    obtain ⟨r0, hr0, rfl⟩ := List.mem_map.mp hr
    rw [← hrows r0 hr0, List.drop_left]
  · rw [hext]
    have htake : (rows.map (fun r => r ++ [if normal then (0 : Rat) else 1])).map
        (fun r => r.take 3) = rows := by
      rw [List.map_map]
      have hid : ∀ r ∈ rows,
          ((fun r => List.take 3 r) ∘ fun r => r ++ [if normal then (0 : Rat) else 1]) r
            = r := by
        intro r hr
        simp only [Function.comp]
        rw [← hrows r hr, List.take_left]
      rw [List.map_congr_left hid]
      exact List.map_id _
    obtain ⟨nd, it, le, ex⟩ := pc
    simp only at hnd hlen
    subst hnd hlen
    simp [PropertyCollection.discard, h0, shapeLast, htake]

/-- C5 witness: one 3-vector, default `extend` (appends 1.0), then `discard`
restores the original proxy. -/
theorem c5_extend_discard_inverse_witness :
    ((⟨some [[1, 2, 3]], 1, 3, false⟩ : PropertyCollection).extend
        [[1, 2, 3]] false
      = (⟨some [[1, 2, 3, 1]], 1, 4, false⟩, none))
    ∧ (∀ r ∈ ([[1, 2, 3]] : List (List Rat)).map
          (fun r => r ++ [if false then (0 : Rat) else 1]),
        r.drop 3 = [if false then (0 : Rat) else 1])
    ∧ (((⟨some [[1, 2, 3]], 1, 3, false⟩ : PropertyCollection).extend
          [[1, 2, 3]] false).1.discard [[1, 2, 3]]
        = (⟨some [[1, 2, 3]], 1, 3, false⟩, none)) :=
  c5_extend_discard_inverse ⟨some [[1, 2, 3]], 1, 3, false⟩ [[1, 2, 3]]
    [[1, 2, 3]] false (by decide) rfl rfl (by decide) rfl

/-- C6: `proxy @ M` returns the freshly computed product and leaves the
proxy's state (in particular its buffer) unchanged, while `proxy @= M` writes
the product into the buffer and returns the proxy; forwarded through
`UnifiedAttribute`, the in-place form returns the `UnifiedAttribute` itself —
same domain and loop-indirection buffers — with only the attribute buffer's
contents replaced, not the underlying buffer proxy. -/
theorem c6_matmul_pure_imatmul_inplace (pc : PropertyCollection)
    (ua : UnifiedAttribute) (m rows : List (List Rat))
    (hnd : pc.ndarray = some rows)
    (hk : (rows.headD []).length = m.length)
    (hm : (m.headD []).length = (rows.headD []).length)
    (hua : ua.loop_attributes = pc) :
    pc.matmul m = ((dotMat rows m, pc), none)
    ∧ pc.imatmul m = ({ pc with ndarray := some (dotMat rows m) }, none)
    ∧ ua.imatmul m =
        ({ ua with
            loop_attributes := { pc with ndarray := some (dotMat rows m) } },
          none)
    ∧ (ua.imatmul m).1.domain = ua.domain
    ∧ (ua.imatmul m).1.loop_start = ua.loop_start
    ∧ (ua.imatmul m).1.loop_total = ua.loop_total := by
  have hk2 : (rows.head?.getD []).length = m.length := by
    rw [← List.headD_eq_head?_getD]; exact hk
  have hm2 : (m.head?.getD []).length = (rows.head?.getD []).length := by
    rw [← List.headD_eq_head?_getD, ← List.headD_eq_head?_getD]; exact hm
  have h1 : pc.matmul m = ((dotMat rows m, pc), none) := by
    simp [PropertyCollection.matmul, hnd, hk2]
  have h2 : pc.imatmul m = ({ pc with ndarray := some (dotMat rows m) }, none) := by
    simp [PropertyCollection.imatmul, hnd, hk2, hm2]
  have h3 : ua.imatmul m =
      ({ ua with
          loop_attributes := { pc with ndarray := some (dotMat rows m) } },
        none) := by
    simp [UnifiedAttribute.imatmul, hua, h2]
  exact ⟨h1, h2, h3, by rw [h3], by rw [h3], by rw [h3]⟩

/-- C6 witness: one 2-component row against the 2x2 identity matrix, wrapped
in a CORNER-domain `UnifiedAttribute`. -/
theorem c6_matmul_pure_imatmul_inplace_witness :
    ((⟨some [[1, 2]], 1, 2, false⟩ : PropertyCollection).matmul
        [[1, 0], [0, 1]]
      = ((dotMat [[1, 2]] [[1, 0], [0, 1]], ⟨some [[1, 2]], 1, 2, false⟩),
          none))
    ∧ ((⟨some [[1, 2]], 1, 2, false⟩ : PropertyCollection).imatmul
          [[1, 0], [0, 1]]
        = (⟨some (dotMat [[1, 2]] [[1, 0], [0, 1]]), 1, 2, false⟩, none))
    ∧ ((⟨Domain.CORNER, PropertyCollection.init, PropertyCollection.init,
          ⟨some [[1, 2]], 1, 2, false⟩⟩ : UnifiedAttribute).imatmul
          [[1, 0], [0, 1]]
        = (⟨Domain.CORNER, PropertyCollection.init, PropertyCollection.init,
            ⟨some (dotMat [[1, 2]] [[1, 0], [0, 1]]), 1, 2, false⟩⟩, none))
    ∧ ((⟨Domain.CORNER, PropertyCollection.init, PropertyCollection.init,
          ⟨some [[1, 2]], 1, 2, false⟩⟩ : UnifiedAttribute).imatmul
          [[1, 0], [0, 1]]).1.domain = Domain.CORNER
    ∧ ((⟨Domain.CORNER, PropertyCollection.init, PropertyCollection.init,
          ⟨some [[1, 2]], 1, 2, false⟩⟩ : UnifiedAttribute).imatmul
          [[1, 0], [0, 1]]).1.loop_start = PropertyCollection.init
    ∧ ((⟨Domain.CORNER, PropertyCollection.init, PropertyCollection.init,
          ⟨some [[1, 2]], 1, 2, false⟩⟩ : UnifiedAttribute).imatmul
          [[1, 0], [0, 1]]).1.loop_total = PropertyCollection.init :=
  c6_matmul_pure_imatmul_inplace ⟨some [[1, 2]], 1, 2, false⟩
    ⟨Domain.CORNER, PropertyCollection.init, PropertyCollection.init,
      ⟨some [[1, 2]], 1, 2, false⟩⟩
    [[1, 0], [0, 1]] [[1, 2]] rfl (by decide) (by decide) rfl

/-- C7 counterexample: `UnifiedAttribute.set` does not push the
loop-indirection buffers. A CORNER-domain proxy whose `loop_start` buffer
holds 5 while the host's loop-start collection holds 0: after a successful
`set()` the host still holds 0 (a `set` that pushed the loop-start buffer
would have written 5), so the claim that `set()` pushes both loop-indirection
buffers is false at this input. -/
theorem c7_set_pushes_indirection_counterexample :
    ((⟨Domain.CORNER, ⟨some [[5]], 1, 1, false⟩, ⟨some [[1]], 1, 1, false⟩,
        ⟨some [[2]], 1, 1, false⟩⟩ : UnifiedAttribute).set
      ⟨[[0]], [[1]], [[7]]⟩).2 = none
    ∧ ((⟨Domain.CORNER, ⟨some [[5]], 1, 1, false⟩, ⟨some [[1]], 1, 1, false⟩,
        ⟨some [[2]], 1, 1, false⟩⟩ : UnifiedAttribute).set
      ⟨[[0]], [[1]], [[7]]⟩).1.attrData = [[2]]
    ∧ ((⟨Domain.CORNER, ⟨some [[5]], 1, 1, false⟩, ⟨some [[1]], 1, 1, false⟩,
        ⟨some [[2]], 1, 1, false⟩⟩ : UnifiedAttribute).set
      ⟨[[0]], [[1]], [[7]]⟩).1.loop_start ≠ [[5]] := by
  decide

/-- C7 as amended: `UnifiedAttribute.set` pushes only the attribute buffer
back to the host — in every domain, including the face-corner domain, the
host's loop-start and loop-total collections are left untouched and the
attribute collection receives exactly the attribute buffer's `set`. -/
theorem c7_set_pushes_only_attribute (ua : UnifiedAttribute) (m : Mesh) :
    (ua.set m).1.loop_start = m.loop_start
    ∧ (ua.set m).1.loop_total = m.loop_total
    ∧ (ua.set m).1.attrData = (ua.loop_attributes.set m.attrData).1
    ∧ (ua.set m).2 = (ua.loop_attributes.set m.attrData).2 := by
  simp [UnifiedAttribute.set]

/-- C9 counterexample: indexed READ on a BufferProxy beyond the element count
does not fail with IndexOutOfRange. `__getitem__` is the numpy slice
`self.ndarray[key:key+1]`, which clips: on a 2-element buffer, reading index
5 returns an empty slice and raises nothing, contradicting the claim that
every out-of-range indexed access (read included) fails. -/
theorem c9_index_read_counterexample :
    ((⟨some [[1], [2]], 2, 1, false⟩ : PropertyCollection).getitem 5).2
        ≠ some Err.indexOutOfRange
    ∧ (⟨some [[1], [2]], 2, 1, false⟩ : PropertyCollection).getitem 5
        = (NpVal.vec [], none) := by
  decide

/-- C9 as amended: out-of-range indexed ASSIGNMENT on a BufferProxy fails
with IndexOutOfRange, and on a UnifiedAttributeProxy both read and
assignment fail with IndexOutOfRange beyond the face count (face-corner
domain) or the element count (other domains) — but out-of-range indexed READ
on a BufferProxy returns an empty slice without raising. -/
theorem c9_index_out_of_range_amended :
    (∀ (pc : PropertyCollection) (rows : List (List Rat)) (key : Nat)
        (v : List Rat), pc.ndarray = some rows → rows.length ≤ key →
        pc.setitem key v = (pc, some Err.indexOutOfRange))
    ∧ (∀ (pc : PropertyCollection) (rows : List (List Rat)) (key : Nat),
        pc.ndarray = some rows → rows.length ≤ key →
        pc.getitem key =
          ((if pc.length > 1 then NpVal.mat [] else NpVal.vec []), none))
    ∧ (∀ (ua : UnifiedAttribute) (ls lt la : List (List Rat)) (key : Nat)
        (v : List (List Rat)),
        ua.domain = Domain.CORNER → ua.loop_start.ndarray = some ls →
        ua.loop_total.ndarray = some lt →
        ua.loop_attributes.ndarray = some la → ls.length ≤ key →
        ua.getitem key = (NpVal.mat [], some Err.indexOutOfRange)
        ∧ ua.setitem key v = (ua, some Err.indexOutOfRange))
    ∧ (∀ (ua : UnifiedAttribute) (la : List (List Rat)) (key : Nat)
        (row : List Rat),
        ua.domain ≠ Domain.CORNER → ua.loop_attributes.ndarray = some la →
        la.length ≤ key →
        ua.getitem key = (NpVal.mat [], some Err.indexOutOfRange)
        ∧ ua.setitem key [row] = (ua, some Err.indexOutOfRange)) := by
  refine ⟨?_, ?_, ?_, ?_⟩
  · intro pc rows key v hnd hk
    have hnlt : ¬ key < rows.length := by omega
    simp [PropertyCollection.setitem, hnd, hnlt]
  · intro pc rows key hnd hk
    have hdrop : rows.drop key = [] := List.drop_eq_nil_of_le hk
    simp [PropertyCollection.getitem, hnd, npSlice, hdrop]
  · intro ua ls lt la key v hdom hls hlt hla hk
    obtain ⟨dom, lsp, ltp, lap⟩ := ua
    simp only at hdom hls hlt hla
    subst hdom
    have hnlt : ¬ key < ls.length := by omega
    constructor
    · simp [UnifiedAttribute.getitem, hls, hlt, hla, hnlt]
    · simp [UnifiedAttribute.setitem, hls, hlt, hla, hnlt]
  · intro ua la key row hdom hla hk
    obtain ⟨dom, lsp, ltp, lap⟩ := ua
    simp only at hdom hla
    have hnlt : ¬ key < la.length := by omega
    cases dom with
    | CORNER => exact absurd rfl hdom
    | FACE =>
      exact ⟨by simp [UnifiedAttribute.getitem, hla, hnlt],
        by simp [UnifiedAttribute.setitem, PropertyCollection.setitem, hla,
          hnlt]⟩
    | EDGE =>
      exact ⟨by simp [UnifiedAttribute.getitem, hla, hnlt],
        by simp [UnifiedAttribute.setitem, PropertyCollection.setitem, hla,
          hnlt]⟩
    | POINT =>
      exact ⟨by simp [UnifiedAttribute.getitem, hla, hnlt],
        by simp [UnifiedAttribute.setitem, PropertyCollection.setitem, hla,
          hnlt]⟩

/-- C9 witness: out-of-range assignment on a 2-element buffer proxy,
out-of-range read on the same proxy, and out-of-range read/assignment on
concrete CORNER-domain and POINT-domain unified proxies. -/
theorem c9_index_out_of_range_amended_witness :
    ((⟨some [[1], [2]], 2, 1, false⟩ : PropertyCollection).setitem 5 [9]
      = (⟨some [[1], [2]], 2, 1, false⟩, some Err.indexOutOfRange))
    ∧ ((⟨some [[1], [2]], 2, 1, false⟩ : PropertyCollection).getitem 5
      = ((if (⟨some [[1], [2]], 2, 1, false⟩ :
            PropertyCollection).length > 1 then NpVal.mat []
          else NpVal.vec []), none))
    ∧ ((⟨Domain.CORNER, ⟨some [[0]], 1, 1, false⟩, ⟨some [[1]], 1, 1, false⟩,
          ⟨some [[7]], 1, 1, false⟩⟩ : UnifiedAttribute).getitem 3
        = (NpVal.mat [], some Err.indexOutOfRange)
      ∧ (⟨Domain.CORNER, ⟨some [[0]], 1, 1, false⟩, ⟨some [[1]], 1, 1, false⟩,
          ⟨some [[7]], 1, 1, false⟩⟩ : UnifiedAttribute).setitem 3 [[9]]
        = (⟨Domain.CORNER, ⟨some [[0]], 1, 1, false⟩,
            ⟨some [[1]], 1, 1, false⟩, ⟨some [[7]], 1, 1, false⟩⟩,
          some Err.indexOutOfRange))
    ∧ ((⟨Domain.POINT, PropertyCollection.init, PropertyCollection.init,
          ⟨some [[7]], 1, 1, false⟩⟩ : UnifiedAttribute).getitem 9
        = (NpVal.mat [], some Err.indexOutOfRange)
      ∧ (⟨Domain.POINT, PropertyCollection.init, PropertyCollection.init,
          ⟨some [[7]], 1, 1, false⟩⟩ : UnifiedAttribute).setitem 9 [[5]]
        = (⟨Domain.POINT, PropertyCollection.init, PropertyCollection.init,
            ⟨some [[7]], 1, 1, false⟩⟩, some Err.indexOutOfRange)) :=
  ⟨c9_index_out_of_range_amended.1 ⟨some [[1], [2]], 2, 1, false⟩ [[1], [2]]
      5 [9] rfl (by decide),
    c9_index_out_of_range_amended.2.1 ⟨some [[1], [2]], 2, 1, false⟩
      [[1], [2]] 5 rfl (by decide),
    c9_index_out_of_range_amended.2.2.1
      ⟨Domain.CORNER, ⟨some [[0]], 1, 1, false⟩, ⟨some [[1]], 1, 1, false⟩,
        ⟨some [[7]], 1, 1, false⟩⟩ [[0]] [[1]] [[7]] 3 [[9]] rfl rfl rfl rfl
      (by decide),
    c9_index_out_of_range_amended.2.2.2
      ⟨Domain.POINT, PropertyCollection.init, PropertyCollection.init,
        ⟨some [[7]], 1, 1, false⟩⟩ [[7]] 9 [5] (by decide) rfl (by decide)⟩

/-- C2: for a face-corner (CORNER domain) proxy and a face index within the
face count, indexed read resolves the face to the half-open loop range
`[loop_start[i], loop_start[i] + loop_count[i])` and returns the slice of the
flat per-loop buffer spanning it — exactly `loop_count[i]` rows; `len()` is
the face count; and the slice is a live view: writing rows through it is the
slice assignment over that same range of the underlying buffer
(`__setitem__`), after which `set()` persists exactly those rows to the
host's per-loop data. -/
theorem c2_corner_indexing_live_view (ua : UnifiedAttribute) (m : Mesh)
    (ls lt v : List (List Rat)) (key s c : Nat)
    (hdom : ua.domain = Domain.CORNER)
    (hls : ua.loop_start.ndarray = some ls)
    (hlt : ua.loop_total.ndarray = some lt)
    (hla : ua.loop_attributes.ndarray = some m.attrData)
    (hitems : ua.loop_start.items = m.loop_start.length)
    (hkey1 : key < ls.length)
    (hkey2 : key < lt.length)
    (hs : ls.getD key [] = [(s : Rat)])
    (hc : lt.getD key [] = [(c : Rat)])
    (hbound : s + c ≤ m.attrData.length)
    (hne : m.attrData ≠ [])
    (hw : ∀ r ∈ m.attrData, r.length = ua.loop_attributes.length)
    (hv1 : v.length = c)
    (hv2 : ∀ r ∈ v, r.length = ua.loop_attributes.length) :
    ua.getitem key = (NpVal.mat (npSlice m.attrData s (s + c)), none)
    ∧ (npSlice m.attrData s (s + c)).length = c
    ∧ ua.len = m.loop_start.length
    ∧ (ua.setitem key v).2 = none
    ∧ (ua.setitem key v).1.set m
      = ({ m with
            attrData := m.attrData.take s ++ v ++ m.attrData.drop (s + c) },
          none) := by
  obtain ⟨dom, lsp, ltp, lap⟩ := ua
  simp only at hdom hls hlt hla hitems hw hv2
  subst hdom
  have hslice : (npSlice m.attrData s (s + c)).length = c := by
    simp only [npSlice, List.length_take, List.length_drop]
    omega
  have hstart : ratIdx ((ls.getD key []).headD 0) = s := by
    rw [hs]
    simpa using ratIdx_natCast s
  have hstop : ratIdx ((lt.getD key []).headD 0) = c := by
    rw [hc]
    simpa using ratIdx_natCast c
  have hget : UnifiedAttribute.getitem ⟨Domain.CORNER, lsp, ltp, lap⟩ key
      = (NpVal.mat (npSlice m.attrData s (s + c)), none) := by
    simp only [UnifiedAttribute.getitem, hls, hlt, hla]
    rw [if_pos hkey1, if_pos hkey2, hstart, hstop]
  have hcond : v.length = (npSlice m.attrData s (s + c)).length
      ∧ ∀ r ∈ v, r.length = lap.length := ⟨by rw [hv1, hslice], hv2⟩
  have hset1 : UnifiedAttribute.setitem ⟨Domain.CORNER, lsp, ltp, lap⟩ key v
      = (⟨Domain.CORNER, lsp, ltp,
          ⟨some (m.attrData.take s ++ v ++ m.attrData.drop (s + c)),
            lap.items, lap.length, lap.extended⟩⟩, none) := by
    simp only [UnifiedAttribute.setitem, hls, hlt, hla]
    rw [if_pos hkey1, if_pos hkey2, hstart, hstop]
    simp only [npSetSlice]
    rw [if_pos hcond, hv1]
  have hmem : m.attrData.headD [] ∈ m.attrData := by
    cases hM : m.attrData with
    | nil => exact absurd hM hne
    | cons a t => simp
  have hflen : fieldLen m.attrData = lap.length := hw _ hmem
  have hnewlen : m.attrData.length
      = (m.attrData.take s ++ v ++ m.attrData.drop (s + c)).length := by
    simp only [List.length_append, List.length_take, List.length_drop, hv1]
    omega
  have hneww : ∀ r ∈ m.attrData.take s ++ v ++ m.attrData.drop (s + c),
      r.length = lap.length := by
    intro r hr
    rcases List.mem_append.mp hr with hr1 | hr2
    · rcases List.mem_append.mp hr1 with hr3 | hr4
      · exact hw r (List.take_subset _ _ hr3)
      · exact hv2 r hr4
    · exact hw r (List.drop_subset _ _ hr2)
  have hforeach := foreachSet_forall₂ m.attrData
      (m.attrData.take s ++ v ++ m.attrData.drop (s + c))
      (forall₂_length_uniform _ _ lap.length hnewlen hw hneww)
  have h0 : ¬ m.attrData.length = 0 := by simpa using hne
  have hset2 : PropertyCollection.set
      ⟨some (m.attrData.take s ++ v ++ m.attrData.drop (s + c)),
        lap.items, lap.length, lap.extended⟩ m.attrData
      = (m.attrData.take s ++ v ++ m.attrData.drop (s + c), none) := by
    simp only [PropertyCollection.set]
    rw [if_neg h0, if_neg (not_ne_iff.mpr hflen)]
    exact hforeach
  refine ⟨hget, hslice, by simp [UnifiedAttribute.len, hitems], ?_, ?_⟩
  · rw [hset1]
  · rw [hset1]
    simp only [UnifiedAttribute.set]
    rw [hset2]

/-- C2 witness: a 2-face mesh (a triangle spanning loops 0-2 and a 1-corner
face at loop 3) with a 2-component per-loop attribute; face 1 resolves to the
range `[3, 4)`, one row, and writing `[[9, 8]]` through it then `set()`
rewrites exactly loop 3 on the host. -/
theorem c2_corner_indexing_live_view_witness :
    ((⟨Domain.CORNER, ⟨some [[0], [3]], 2, 1, false⟩,
        ⟨some [[3], [1]], 2, 1, false⟩,
        ⟨some [[1, 1], [2, 2], [3, 3], [4, 4]], 4, 2, false⟩⟩ :
          UnifiedAttribute).getitem 1
      = (NpVal.mat (npSlice [[1, 1], [2, 2], [3, 3], [4, 4]] 3 (3 + 1)),
          none))
    ∧ (npSlice [[1, 1], [2, 2], [3, 3], [4, 4]] 3 (3 + 1)).length = 1
    ∧ (⟨Domain.CORNER, ⟨some [[0], [3]], 2, 1, false⟩,
        ⟨some [[3], [1]], 2, 1, false⟩,
        ⟨some [[1, 1], [2, 2], [3, 3], [4, 4]], 4, 2, false⟩⟩ :
          UnifiedAttribute).len
      = ([[0], [3]] : List (List Rat)).length
    ∧ ((⟨Domain.CORNER, ⟨some [[0], [3]], 2, 1, false⟩,
        ⟨some [[3], [1]], 2, 1, false⟩,
        ⟨some [[1, 1], [2, 2], [3, 3], [4, 4]], 4, 2, false⟩⟩ :
          UnifiedAttribute).setitem 1 [[9, 8]]).2 = none
    ∧ ((⟨Domain.CORNER, ⟨some [[0], [3]], 2, 1, false⟩,
        ⟨some [[3], [1]], 2, 1, false⟩,
        ⟨some [[1, 1], [2, 2], [3, 3], [4, 4]], 4, 2, false⟩⟩ :
          UnifiedAttribute).setitem 1 [[9, 8]]).1.set
        ⟨[[0], [3]], [[3], [1]], [[1, 1], [2, 2], [3, 3], [4, 4]]⟩
      = (⟨[[0], [3]], [[3], [1]],
          ([[1, 1], [2, 2], [3, 3], [4, 4]] : List (List Rat)).take 3
            ++ [[9, 8]]
            ++ ([[1, 1], [2, 2], [3, 3], [4, 4]] : List (List Rat)).drop
                (3 + 1)⟩, none) :=
  c2_corner_indexing_live_view
    ⟨Domain.CORNER, ⟨some [[0], [3]], 2, 1, false⟩,
      ⟨some [[3], [1]], 2, 1, false⟩,
      ⟨some [[1, 1], [2, 2], [3, 3], [4, 4]], 4, 2, false⟩⟩
    ⟨[[0], [3]], [[3], [1]], [[1, 1], [2, 2], [3, 3], [4, 4]]⟩
    [[0], [3]] [[3], [1]] [[9, 8]] 1 3 1 rfl rfl rfl rfl (by decide)
    (by decide) (by decide) (by decide) (by decide) (by decide) (by decide)
    (by decide) (by decide) (by decide)
